import Mathlib

/-!
Verification of the LOF path pipeline (`Path_module`): shallow embedding of
`matcher.py`, `graph_manager.py`, `visualizer.py` and `utils.py`, with the
external collaborators (geodesic distance, shapely distance, the OSMnx graph
provider, networkx shortest-path) abstracted as function parameters.

Coordinates are pairs of rationals in the source's internal `(lon, lat)`
convention; distances returned by the geodesic oracle are rationals.
-/

namespace LOF

/-- A coordinate in the source's internal `(lon, lat)` order. -/
abbrev Coord : Type := ℚ × ℚ

/-- Swap a `(lon, lat)` coordinate to the `(lat, lon)` order in which the
source hands points to `geopy.distance.geodesic`. -/
def latlon (p : Coord) : Coord := (p.2, p.1)

/-- The thresholds `stitch_and_merge_paths` reads from the external
configuration module (`cfg.*` in `matcher.py`). -/
structure StitchConfig where
  MAX_END_TO_END_DIST_M : ℚ
  GAP_BREAK_M : ℚ
  MAX_BRIDGE_TRY_M : ℚ
deriving DecidableEq

/-- `EPS_CONNECT_M = 50.0`, the constant defined inside
`stitch_and_merge_paths` (matcher.py line 149). -/
def EPS_CONNECT_M : ℚ := 50

/-- The loop state of `stitch_and_merge_paths` (matcher.py lines 145-148),
plus a ghost counter `bridgeTries` recording how many times the fallback
router (`route_between_points_with_fallback`) has been invoked for a bridge;
the counter instruments the embedding and does not alter control flow. -/
structure StitchState where
  chunks : List (List Coord)
  merged_coords : List Coord
  prev_end : Option Coord
  prev_rid : Option Nat
  bridgeTries : Nat
deriving DecidableEq

/-- `flush_chunk` (matcher.py lines 151-155): emit the working coordinate
list as a chunk when it has at least 2 points, otherwise discard it. -/
def flush_chunk (st : StitchState) : StitchState :=
  if 2 ≤ st.merged_coords.length then
    { st with chunks := st.chunks ++ [st.merged_coords], merged_coords := [] }
  else
    { st with merged_coords := [] }

/-- The guard at matcher.py line 161: a matched line is skipped when it is
`None` or has fewer than 2 coordinates. -/
def isAbsentOrDegenerate : Option (List Coord) → Bool
  | none => true
  | some cs => decide (cs.length < 2)

/-- `prev_rid if prev_rid else rid` (matcher.py lines 201/220): Python
truthiness treats both `None` and `0` as false. -/
def ridGapOf : Option Nat → Nat → Nat
  | some r, rid => if r = 0 then rid else r
  | none, rid => rid

/-- The coordinate-append idiom used at matcher.py lines 207-208, 225-226 and
242-243: drop the incoming list's first point when it equals the working
list's last point.  (In the source `merged_coords[-1]` is only read with a
non-empty working list; see the C10 invariant.) -/
def appendDedup (m add : List Coord) : List Coord :=
  if m.getLast? = some add.headI then m ++ add.tail else m ++ add

/-- Start a new chunk with the incoming line's coordinates and update the
previous endpoint and region (the `merged_coords.extend(list(line.coords))`
plus `prev_end`/`prev_rid` updates after each force split, and the
first-line branch at matcher.py lines 169-173). -/
def startNewChunk (st : StitchState) (cs : List Coord) (rid : Nat) : StitchState :=
  { st with merged_coords := st.merged_coords ++ cs,
            prev_end := some cs.getLastI, prev_rid := some rid }

/-- The shared tail of the loop body (matcher.py lines 242-245): append the
current line's coordinates with endpoint deduplication and update
`prev_end`/`prev_rid`. -/
def appendCurrentLine (st : StitchState) (cs : List Coord) (rid : Nat) : StitchState :=
  { st with merged_coords := appendDedup st.merged_coords cs,
            prev_end := some cs.getLastI, prev_rid := some rid }

/-- The bridging attempt shared by branches 4-2 and 5-1 of
`stitch_and_merge_paths` (matcher.py lines 199-215 and 218-233): invoke the
fallback router on `[prev_end, line.start]`; on a result with more than one
coordinate append the bridge then the line, otherwise flush and start a new
chunk with the line. -/
def tryBridgeThen (bridgeRoute : Nat → List Coord → Option (List Coord))
    (st : StitchState) (pe : Coord) (cs : List Coord) (rid : Nat) : StitchState :=
  let st1 := { st with bridgeTries := st.bridgeTries + 1 }
  match bridgeRoute (ridGapOf st.prev_rid rid) [pe, cs.headI] with
  | some b =>
      if 1 < b.length then
        appendCurrentLine { st1 with merged_coords := appendDedup st1.merged_coords b } cs rid
      else
        startNewChunk (flush_chunk st1) cs rid
  | none => startNewChunk (flush_chunk st1) cs rid

/-- The body of `stitch_and_merge_paths`'s loop for a line that passed the
absent/degenerate guard (matcher.py lines 164-245).  `geo` abstracts
`geodesic(·,·).meters` on `(lat, lon)` pairs; `bridgeRoute` abstracts
`route_between_points_with_fallback(reg_cache, ·, ·)`. -/
def stitch_step_line (cfg : StitchConfig) (geo : Coord → Coord → ℚ)
    (bridgeRoute : Nat → List Coord → Option (List Coord))
    (st : StitchState) (cs : List Coord) (rid : Nat) : StitchState :=
  match st.prev_end with
  | none => startNewChunk st cs rid
  | some pe =>
      let gap_m := geo (latlon pe) (latlon cs.headI)
      let end_to_end_m := geo (latlon pe) (latlon cs.getLastI)
      if cfg.MAX_END_TO_END_DIST_M ≤ end_to_end_m then
        startNewChunk (flush_chunk st) cs rid
      else if cfg.GAP_BREAK_M < gap_m then
        if cfg.MAX_BRIDGE_TRY_M < gap_m then
          startNewChunk (flush_chunk st) cs rid
        else
          tryBridgeThen bridgeRoute st pe cs rid
      else if EPS_CONNECT_M < gap_m then
        tryBridgeThen bridgeRoute st pe cs rid
      else
        appendCurrentLine st cs rid

/-- One iteration of `stitch_and_merge_paths`'s loop (matcher.py lines
157-245). -/
def stitch_step (cfg : StitchConfig) (geo : Coord → Coord → ℚ)
    (bridgeRoute : Nat → List Coord → Option (List Coord))
    (st : StitchState) (line : Option (List Coord)) (rid : Nat) : StitchState :=
  if isAbsentOrDegenerate line then
    { flush_chunk st with prev_end := none, prev_rid := none }
  else
    stitch_step_line cfg geo bridgeRoute st (line.getD []) rid

/-- The initial loop state of `stitch_and_merge_paths`. -/
def stitchInit : StitchState :=
  { chunks := [], merged_coords := [], prev_end := none, prev_rid := none, bridgeTries := 0 }

/-- The final loop state of `stitch_and_merge_paths` on the given inputs
(the matched lines are paired positionally with their region ids, as the
source's `seg_region_ids[i]` indexing does). -/
def stitchRun (cfg : StitchConfig) (geo : Coord → Coord → ℚ)
    (bridgeRoute : Nat → List Coord → Option (List Coord))
    (matched : List (Option (List Coord))) (rids : List Nat) : StitchState :=
  (matched.zip rids).foldl (fun st p => stitch_step cfg geo bridgeRoute st p.1 p.2) stitchInit

/-- `stitch_and_merge_paths` (matcher.py lines 138-248): run the loop, flush
the final chunk, and return the chunk list. -/
def stitch_and_merge_paths (cfg : StitchConfig) (geo : Coord → Coord → ℚ)
    (bridgeRoute : Nat → List Coord → Option (List Coord))
    (matched : List (Option (List Coord))) (rids : List Nat) : List (List Coord) :=
  (flush_chunk (stitchRun cfg geo bridgeRoute matched rids)).chunks

/-- The routing-relevant view of an OSMnx `MultiDiGraph` together with the
library algorithms the source runs on it: `nodes` gives a node's `(x, y)`
coordinate, `edgeData u v` the parallel edges between `u` and `v` (empty
list when `G.get_edge_data` returns nothing), `snap` abstracts
`gm.snap_nodes_hybrid` (`none` when it raises), and `sp` abstracts
`nx.shortest_path … weight="length"` (`none` when no path exists). -/
structure Graph where
  nodes : Nat → Coord
  edgeData : Nat → Nat → List (ℚ × Option (List Coord))
  snap : Coord → Option Nat
  sp : Nat → Nat → Option (List Nat)

/-- `_safe_same_node_linestring` (graph_manager.py lines 114-120): the
zero-length two-point line at a node's coordinate. -/
def safe_same_node_linestring (G : Graph) (node : Nat) : List Coord :=
  [G.nodes node, G.nodes node]

/-- The loop at matcher.py lines 43-45 continued: keep a node only when it
differs from the last kept one. -/
def dedupConsecLoop (lastKept : Nat) : List Nat → List Nat
  | [] => []
  | x :: xs => if x ≠ lastKept then x :: dedupConsecLoop x xs else dedupConsecLoop lastKept xs

/-- Consecutive-duplicate removal over the snapped nodes
(`unique_nodes`, matcher.py lines 43-45). -/
def dedupConsec : List Nat → List Nat
  | [] => []
  | x :: xs => x :: dedupConsecLoop x xs

/-- Pick the parallel edge of minimal `length` (matcher.py line 64;
Python's `min` keeps the first minimum in iteration order). -/
def minLengthEdge (e : ℚ × Option (List Coord)) (es : List (ℚ × Option (List Coord))) :
    ℚ × Option (List Coord) :=
  es.foldl (fun best c => if c.1 < best.1 then c else best) e

/-- The coordinates contributed by one routed edge (matcher.py lines 60-73):
the edge's precise geometry when present, otherwise the straight segment
between its endpoint coordinates; no edge data contributes nothing. -/
def edgeCoords (G : Graph) (u v : Nat) : List Coord :=
  match G.edgeData u v with
  | [] => []
  | e :: es =>
      match (minLengthEdge e es).2 with
      | some g => g
      | none => [G.nodes u, G.nodes v]

/-- Concatenation of edge geometries with shared-endpoint deduplication
(matcher.py lines 76-78).  An empty contribution is appended as-is. -/
def appendFullCoords (full ec : List Coord) : List Coord :=
  if full = [] then ec
  else if full.getLast? = some ec.headI then full ++ ec.tail
  else full ++ ec

/-- Walk one shortest-path node list, appending each edge's coordinates
(matcher.py lines 59-78). -/
def appendRouteNodes (G : Graph) (full : List Coord) (routeNodes : List Nat) : List Coord :=
  (routeNodes.zip routeNodes.tail).foldl
    (fun acc uv => appendFullCoords acc (edgeCoords G uv.1 uv.2)) full

/-- The per-pair routing loop of `route_on_graph_with_waypoints`
(matcher.py lines 53-79): any shortest-path failure aborts with `none`. -/
def routePairsLoop (G : Graph) (full : List Coord) : List Nat → Option (List Coord)
  | [] => some full
  | [_] => some full
  | u :: v :: rest =>
      match G.sp u v with
      | none => none
      | some routeNodes => routePairsLoop G (appendRouteNodes G full routeNodes) (v :: rest)

/-- `route_on_graph_with_waypoints` (matcher.py lines 28-81). -/
def route_on_graph_with_waypoints (G : Graph) (waypoints : List Coord) :
    Option (List Coord) :=
  if waypoints.length < 2 then none
  else
    match waypoints.mapM G.snap with
    | none => none
    | some allNodes =>
        let uniqueNodes := dedupConsec allNodes
        if uniqueNodes.length < 2 then
          some (safe_same_node_linestring G uniqueNodes.headI)
        else
          match routePairsLoop G [] uniqueNodes with
          | none => none
          | some fullCoords => if fullCoords = [] then none else some fullCoords

/-- One fallback tier of `route_between_points_with_fallback` (matcher.py
lines 91-98 and 103-108): try each network type in order; a graph-fetch
error or an unusable route (absent, or at most one coordinate) moves on to
the next network type. -/
def tryNets (fetch : Nat → Except Nat Graph) (waypoints : List Coord) :
    List Nat → Option (List Coord)
  | [] => none
  | net :: rest =>
      match fetch net with
      | .error _ => tryNets fetch waypoints rest
      | .ok G =>
          match route_on_graph_with_waypoints G waypoints with
          | none => tryNets fetch waypoints rest
          | some line =>
              if 1 < line.length then some line else tryNets fetch waypoints rest

/-- `route_between_points_with_fallback` (matcher.py lines 86-110).
`getGraph` abstracts `reg_cache.get_with_expand`; `bboxGraph` abstracts
`gm.graph_from_segment_bbox` for the first/last waypoint with its fixed
padding (the bbox endpoints are determined by the waypoint list, which is
passed through).  `netP, netS` are `cfg.NETWORK_TYPE_PRIMARY/SECONDARY`. -/
def route_between_points_with_fallback (getGraph : Nat → Nat → Except Nat Graph)
    (bboxGraph : List Coord → Nat → Except Nat Graph) (netP netS : Nat)
    (regionId : Nat) (waypoints : List Coord) : Option (List Coord) :=
  match tryNets (fun net => getGraph regionId net) waypoints [netP, netS] with
  | some line => some line
  | none => tryNets (fun net => bboxGraph waypoints net) waypoints [netP, netS]

/-- The error outcomes of `RegionGraphCache.get_with_expand`
(graph_manager.py lines 27-62): the `ValueError` for a region id missing
from `reg_df`, a re-raised provider exception (abstracted by a numeric
code), and the final `RuntimeError("graph load failed")`. -/
inductive GraphErr where
  | valueErr : GraphErr
  | provErr : Nat → GraphErr
  | loadFailed : GraphErr
deriving DecidableEq

/-- Exact-match lookup in the cache mapping
`(region_id, network_type, dist) ↦ graph`. -/
def lookupCache {γ : Type} (cache : List ((Nat × Nat × Nat) × γ)) (key : Nat × Nat × Nat) :
    Option γ :=
  (cache.find? (fun kv => kv.1 = key)).map (fun kv => kv.2)

/-- The radius-expansion loop of `get_with_expand` (graph_manager.py lines
43-62), carrying `last_exc`: per radius, return a cache hit, else call the
provider, caching and returning a success and recording a failure.  On
exhaustion raise the last recorded error, or the generic failure when none
was recorded. -/
def getWithExpandLoop {γ : Type} (provider : ℚ → ℚ → Nat → Nat → Except Nat γ)
    (cache : List ((Nat × Nat × Nat) × γ)) (regionId netType baseDist : Nat)
    (lat lon : ℚ) : List Nat → Option Nat → Except GraphErr (γ × List ((Nat × Nat × Nat) × γ))
  | [], lastExc =>
      .error (match lastExc with | some e => .provErr e | none => .loadFailed)
  | extra :: rest, _ =>
      let dist := baseDist + extra
      match lookupCache cache (regionId, netType, dist) with
      | some G => .ok (G, cache)
      | none =>
          match provider lat lon dist netType with
          | .ok G => .ok (G, cache ++ [((regionId, netType, dist), G)])
          | .error e => getWithExpandLoop provider cache regionId netType baseDist lat lon rest (some e)

/-- `RegionGraphCache.get_with_expand` (graph_manager.py lines 27-62).
`regDf` is the region table as `(region_id, mean_lat, mean_lon)` rows
(the first matching row is used); `distExpands` is `cfg.DIST_EXPANDS` and
`baseDist` is `cfg.REGION_GRAPH_DIST_M`.  Returns the graph and the
(possibly grown) cache, or the raised error. -/
def get_with_expand {γ : Type} (regDf : List (Nat × ℚ × ℚ))
    (provider : ℚ → ℚ → Nat → Nat → Except Nat γ) (distExpands : List Nat)
    (baseDist : Nat) (cache : List ((Nat × Nat × Nat) × γ)) (regionId netType : Nat) :
    Except GraphErr (γ × List ((Nat × Nat × Nat) × γ)) :=
  match regDf.find? (fun r => r.1 = regionId) with
  | none => .error .valueErr
  | some r => getWithExpandLoop provider cache regionId netType baseDist r.2.1 r.2.2 distExpands none

/-- The edge list built by `group_lines_by_connectivity` (visualizer.py
lines 29-32): one edge `(i, j)` per pair `i < j` whose shapely distance
(abstracted by `distF`) is below the tolerance, in the source's nested-loop
order. -/
def adjPairs (distF : List Coord → List Coord → ℚ) (lines : List (List Coord)) (tol : ℚ) :
    List (Nat × Nat) :=
  (List.range lines.length).flatMap (fun i =>
    ((List.range lines.length).filter
        (fun j => decide (i < j) && decide (distF (lines.getD i []) (lines.getD j []) < tol))).map
      (fun j => (i, j)))

/-- Merge the representative classes of an edge's two endpoints: every index
represented by `rep[b]` is re-represented by `rep[a]`.  This models the
union step of `nx.connected_components` on the graph built by
`group_lines_by_connectivity`. -/
def mergeEdge (rep : List Nat) (e : Nat × Nat) : List Nat :=
  rep.map (fun r => if r = rep.getD e.2 0 then rep.getD e.1 0 else r)

/-- Representatives of the connected components over `n` indices after
processing all edges (union-find by whole-class relabeling). -/
def componentRep (n : Nat) (edges : List (Nat × Nat)) : List Nat :=
  edges.foldl mergeEdge (List.range n)

/-- The connected components of `group_lines_by_connectivity`'s graph, as
index groups: one group per distinct representative, in index order. -/
def componentGroups (n : Nat) (edges : List (Nat × Nat)) : List (List Nat) :=
  let rep := componentRep n edges
  rep.dedup.map (fun r => (List.range n).filter (fun i => rep.getD i 0 = r))

/-- The index-level result of `group_lines_by_connectivity`
(visualizer.py lines 12-36): connected components of the
below-tolerance adjacency graph over line indices. -/
def groupLinesIdx (distF : List Coord → List Coord → ℚ) (lines : List (List Coord))
    (tol : ℚ) : List (List Nat) :=
  componentGroups lines.length (adjPairs distF lines tol)

/-- `group_lines_by_connectivity` (visualizer.py lines 12-36): map each
component back to its member lines. -/
def group_lines_by_connectivity (distF : List Coord → List Coord → ℚ)
    (lines : List (List Coord)) (tol : ℚ) : List (List (List Coord)) :=
  (groupLinesIdx distF lines tol).map (fun g => g.map (fun i => lines.getD i []))

/-- Two indices land in the same group of the grouping. -/
def sameGroup (groups : List (List Nat)) (i j : Nat) : Prop :=
  ∃ g ∈ groups, i ∈ g ∧ j ∈ g

/-- The `while` loop of `interpolate_continuous_coords_global` (utils.py
lines 156-165), with explicit fuel (the Python loop does not terminate when
`step_m ≤ 0`; `interpWhileFuel` below bounds its iteration count whenever
`0 < step_m`).  State: points emitted so far are returned, `distSince` and
`traveled` are the loop variables `dist_since` and `current_seg_traveled`.
Coordinates here are `(lat, lon)` pairs, as in the source. -/
def interpWhile (stepM segDist : ℚ) (p1 p2 : Coord) :
    Nat → ℚ → ℚ → List Coord × ℚ × ℚ
  | 0, distSince, traveled => ([], distSince, traveled)
  | fuel + 1, distSince, traveled =>
      if stepM ≤ distSince + (segDist - traveled) then
        let need := stepM - distSince
        let frac := if 0 < segDist then (traveled + need) / segDist else 0
        let pt : Coord := (p1.1 + (p2.1 - p1.1) * frac, p1.2 + (p2.2 - p1.2) * frac)
        let rest := interpWhile stepM segDist p1 p2 fuel 0 (traveled + need)
        (pt :: rest.1, rest.2)
      else ([], distSince, traveled)

/-- An upper bound on the iteration count of the `while` loop when
`0 < step_m`: each iteration advances the emitted arc length by `step_m`,
and at most `distSince + segDist` arc length is available. -/
def interpWhileFuel (stepM segDist distSince : ℚ) : Nat :=
  if 0 < stepM then (⌈(distSince + segDist) / stepM⌉).toNat + 1 else 0

/-- One consecutive pair `(p1, p2)` of an island (utils.py lines 149-167):
run the interpolation loop, then add the unconsumed remainder of the
segment to `dist_since`. -/
def interpSegPair (stepM : ℚ) (p1 p2 : Coord) (segDist distSince : ℚ) :
    List Coord × ℚ :=
  let r := interpWhile stepM segDist p1 p2 (interpWhileFuel stepM segDist distSince) distSince 0
  (r.1, r.2.1 + (segDist - r.2.2))

/-- Per-island processing of `interpolate_continuous_coords_global`
(utils.py lines 145-167): start from the island's first point with
`dist_since = 0`, and walk consecutive pairs.  `geo` abstracts
`geodesic(p1, p2).meters` on the `(lat, lon)` pairs stored in the input. -/
def interpIsland (geo : Coord → Coord → ℚ) (stepM : ℚ) (segment : List Coord) :
    List Coord :=
  ((segment.zip segment.tail).foldl
    (fun (acc : List Coord × ℚ) pq =>
      let segDist := geo pq.1 pq.2
      let r := interpSegPair stepM pq.1 pq.2 segDist acc.2
      (acc.1 ++ r.1, r.2))
    ([segment.headI], 0)).1

/-- `interpolate_continuous_coords_global` (utils.py lines 130-172):
islands with fewer than 2 points are skipped; each remaining island is
interpolated independently and the results are concatenated. -/
def interpolate_continuous_coords_global (geo : Coord → Coord → ℚ)
    (linesCoords : List (List Coord)) (stepM : ℚ) : List Coord :=
  (linesCoords.filter (fun seg => 2 ≤ seg.length)).flatMap (interpIsland geo stepM)

/-! ### Predicates used by the theorems -/

/-- The C10 invariant: whenever the stitcher loop has a previous endpoint,
the working coordinate list has at least 2 coordinates. -/
def StitchInv (st : StitchState) : Prop :=
  st.prev_end.isSome → 2 ≤ st.merged_coords.length

/-- The undirected relation generated by an edge list over indices. -/
def edgesRel (edges : List (Nat × Nat)) (x y : Nat) : Prop :=
  (x, y) ∈ edges ∨ (y, x) ∈ edges

/-- Invariant of the union-find fold: the representative list has length `n`
and two indices share a representative exactly when they are related by the
equivalence closure of `R`. -/
def RepInv (n : Nat) (R : Nat → Nat → Prop) (rep : List Nat) : Prop :=
  rep.length = n ∧
  ∀ i j, i < n → j < n → ((rep.getD i 0 = rep.getD j 0) ↔ Relation.EqvGen R i j)

/-- The undirected below-tolerance adjacency relation over line indices that
`group_lines_by_connectivity` builds its graph from: the pair is compared in
increasing-index order, exactly as the source's nested loops do. -/
def belowTolRel (distF : List Coord → List Coord → ℚ) (lines : List (List Coord))
    (tol : ℚ) (x y : Nat) : Prop :=
  (x < y ∧ y < lines.length ∧ distF (lines.getD x []) (lines.getD y []) < tol) ∨
  (y < x ∧ x < lines.length ∧ distF (lines.getD y []) (lines.getD x []) < tol)

/-! ### Concrete instances used by counterexamples and witnesses -/

/-- Configuration with `MAX_END_TO_END_DIST_M = 50`, `GAP_BREAK_M = 300`,
`MAX_BRIDGE_TRY_M = 1000`. -/
def cfgA : StitchConfig := ⟨50, 300, 1000⟩

/-- A geodesic oracle: distance `0` between equal points, else `100`. -/
def geoA : Coord → Coord → ℚ := fun x y => if x = y then 0 else 100

/-- A fallback router that always fails. -/
def brNone : Nat → List Coord → Option (List Coord) := fun _ _ => none

/-- Configuration with `MAX_END_TO_END_DIST_M = 100000`, `GAP_BREAK_M = 1000`,
`MAX_BRIDGE_TRY_M = 300` (the gap-break threshold exceeds the bridge cap). -/
def cfgB : StitchConfig := ⟨100000, 1000, 300⟩

/-- A geodesic oracle returning the constant distance `500`. -/
def geoB : Coord → Coord → ℚ := fun _ _ => 500

/-- A fallback router that always returns the two-point bridge
`[(1,0), (2,0)]`. -/
def brB : Nat → List Coord → Option (List Coord) := fun _ _ => some [(1, 0), (2, 0)]

/-- A graph on which every shortest-path search fails: waypoints snap to
node 0 or node 1 depending on position. -/
def graphNoPath : Graph :=
  { nodes := fun _ => (0, 0), edgeData := fun _ _ => [],
    snap := fun w => some (if w = ((0:ℚ), (0:ℚ)) then 0 else 1),
    sp := fun _ _ => none }

/-- A graph whose snapper sends every coordinate to node 3, which sits at
`(5, 7)`. -/
def graphOneNode : Graph :=
  { nodes := fun _ => (5, 7), edgeData := fun _ _ => [],
    snap := fun _ => some 3, sp := fun _ _ => none }

/-- A graph provider that always succeeds (graphs abstracted to `Nat`). -/
def providerOk : ℚ → ℚ → Nat → Nat → Except Nat Nat := fun _ _ _ _ => .ok 0

/-- A graph provider that always fails with error code 7. -/
def providerErr7 : ℚ → ℚ → Nat → Nat → Except Nat Nat := fun _ _ _ _ => .error 7

/-- Chunk A of the three-chunk grouping scenario. -/
def lineA : List Coord := [(0, 0), (1, 0)]

/-- Chunk B of the three-chunk grouping scenario. -/
def lineB : List Coord := [(1, 0), (2, 0)]

/-- Chunk C of the three-chunk grouping scenario. -/
def lineC : List Coord := [(2, 0), (3, 0)]

/-- A geometric-separation oracle making A–B and B–C touch (distance 0)
while A and C stay far apart (distance 10). -/
def distABC : List Coord → List Coord → ℚ := fun a b =>
  if (a = lineA ∧ b = lineB) ∨ (b = lineA ∧ a = lineB) ∨
     (a = lineB ∧ b = lineC) ∨ (b = lineB ∧ a = lineC) then 0 else 10

/-! ### Theorems -/

theorem appendDedup_length_le (m add : List Coord) :
    m.length ≤ (appendDedup m add).length := by
  unfold appendDedup
  split <;> simp [List.length_append]

theorem two_le_startNewChunk (st : StitchState) (cs : List Coord) (rid : Nat)
    (h : 2 ≤ cs.length) : 2 ≤ (startNewChunk st cs rid).merged_coords.length := by
  simp [startNewChunk]; omega

theorem two_le_appendCurrentLine (st : StitchState) (cs : List Coord) (rid : Nat)
    (h : 2 ≤ st.merged_coords.length) :
    2 ≤ (appendCurrentLine st cs rid).merged_coords.length := by
  simpa [appendCurrentLine] using le_trans h (appendDedup_length_le _ _)

theorem two_le_tryBridgeThen (bridgeRoute : Nat → List Coord → Option (List Coord))
    (st : StitchState) (pe : Coord) (cs : List Coord) (rid : Nat)
    (hm : 2 ≤ st.merged_coords.length) (hcs : 2 ≤ cs.length) :
    2 ≤ (tryBridgeThen bridgeRoute st pe cs rid).merged_coords.length := by
  unfold tryBridgeThen
  split
  · split
    · exact two_le_appendCurrentLine _ _ _
        (by simpa using le_trans hm (appendDedup_length_le _ _))
    · exact two_le_startNewChunk _ _ _ hcs
  · exact two_le_startNewChunk _ _ _ hcs

theorem stitch_step_preserves_inv (cfg : StitchConfig) (geo : Coord → Coord → ℚ)
    (bridgeRoute : Nat → List Coord → Option (List Coord)) (st : StitchState)
    (line : Option (List Coord)) (rid : Nat) (hinv : StitchInv st) :
    StitchInv (stitch_step cfg geo bridgeRoute st line rid) := by
  unfold stitch_step
  split
  · intro h; simp at h
  · rename_i hdeg
    have hlen : 2 ≤ (line.getD []).length := by
      cases line with
      | none => simp [isAbsentOrDegenerate] at hdeg
      | some cs =>
          simp [isAbsentOrDegenerate] at hdeg
          simpa using hdeg
    unfold stitch_step_line
    split
    · intro _; exact two_le_startNewChunk _ _ _ hlen
    · rename_i pe hpe
      have hm : 2 ≤ st.merged_coords.length := hinv (by simp [hpe])
      dsimp only
      split
      · intro _; exact two_le_startNewChunk _ _ _ hlen
      · split
        · split
          · intro _; exact two_le_startNewChunk _ _ _ hlen
          · intro _; exact two_le_tryBridgeThen _ _ _ _ _ hm hlen
        · split
          · intro _; exact two_le_tryBridgeThen _ _ _ _ _ hm hlen
          · intro _; exact two_le_appendCurrentLine _ _ _ hm

theorem stitch_foldl_preserves_inv (cfg : StitchConfig) (geo : Coord → Coord → ℚ)
    (bridgeRoute : Nat → List Coord → Option (List Coord))
    (l : List (Option (List Coord) × Nat)) (st : StitchState) (hinv : StitchInv st) :
    StitchInv (l.foldl (fun s p => stitch_step cfg geo bridgeRoute s p.1 p.2) st) := by
  induction l generalizing st with
  | nil => exact hinv
  | cons p rest ih =>
      exact ih _ (stitch_step_preserves_inv cfg geo bridgeRoute st p.1 p.2 hinv)

/-- C10: implicit stitcher state invariant — at every iteration boundary of
`stitch_and_merge_paths`' main loop (i.e. after processing any prefix of the
input), whenever `prev_end` is not `None` the working coordinate list
`merged_coords` holds at least 2 coordinates, so the `merged_coords[-1]`
accesses performed while processing the next line read a non-empty list. -/
theorem stitch_merged_coords_invariant (cfg : StitchConfig) (geo : Coord → Coord → ℚ)
    (bridgeRoute : Nat → List Coord → Option (List Coord))
    (matched : List (Option (List Coord))) (rids : List Nat) (k : Nat)
    (h : (((matched.zip rids).take k).foldl
        (fun st p => stitch_step cfg geo bridgeRoute st p.1 p.2) stitchInit).prev_end.isSome) :
    2 ≤ (((matched.zip rids).take k).foldl
        (fun st p => stitch_step cfg geo bridgeRoute st p.1 p.2) stitchInit).merged_coords.length :=
  stitch_foldl_preserves_inv cfg geo bridgeRoute _ stitchInit (fun hs => by simp [stitchInit] at hs) h

/-- Witness for C10 at a concrete input: after one processed line the
previous endpoint is set and the working list has 2 coordinates. -/
theorem stitch_merged_coords_invariant_witness :
    2 ≤ ((([(some [((0:ℚ),(0:ℚ)),(1,0)])].zip [0]).take 1).foldl
        (fun st p => stitch_step cfgA geoA brNone st p.1 p.2) stitchInit).merged_coords.length :=
  stitch_merged_coords_invariant cfgA geoA brNone [(some [(0,0),(1,0)])] [0] 1 (by decide)

/-- C2: end-to-end force split — when the previous endpoint exists and the
geodesic distance from it to the incoming line's end point reaches
`MAX_END_TO_END_DIST_M`, the step flushes the current chunk (emitting it only
when it has ≥ 2 points) and starts a new chunk with the incoming line,
without invoking the fallback router (the bridge counter is unchanged),
regardless of the start gap. -/
theorem stitch_end_to_end_force_split (cfg : StitchConfig) (geo : Coord → Coord → ℚ)
    (bridgeRoute : Nat → List Coord → Option (List Coord)) (st : StitchState)
    (cs : List Coord) (rid : Nat) (pe : Coord)
    (hprev : st.prev_end = some pe) (hlen : 2 ≤ cs.length)
    (he2e : cfg.MAX_END_TO_END_DIST_M ≤ geo (latlon pe) (latlon cs.getLastI)) :
    stitch_step cfg geo bridgeRoute st (some cs) rid
      = { chunks := if 2 ≤ st.merged_coords.length then st.chunks ++ [st.merged_coords]
                    else st.chunks,
          merged_coords := cs, prev_end := some cs.getLastI, prev_rid := some rid,
          bridgeTries := st.bridgeTries } := by
  have hnd : isAbsentOrDegenerate (some cs) = false := by
    simp [isAbsentOrDegenerate]; omega
  simp only [stitch_step, hnd, Bool.false_eq_true, if_false, Option.getD_some,
    stitch_step_line, hprev]
  rw [if_pos he2e]
  unfold startNewChunk flush_chunk
  split <;> simp

/-- Witness for C2: a small start gap (0) with a large end-to-end distance
(100 ≥ 50) still splits. -/
theorem stitch_end_to_end_force_split_witness :
    stitch_step cfgA geoA brNone
        { chunks := [], merged_coords := [((0:ℚ),(0:ℚ)),(1,0)], prev_end := some (1,0),
          prev_rid := some 0, bridgeTries := 0 } (some [((1:ℚ),(0:ℚ)),(9,9)]) 0
      = { chunks := [[((0:ℚ),(0:ℚ)),(1,0)]], merged_coords := [((1:ℚ),(0:ℚ)),(9,9)],
          prev_end := some (9,9), prev_rid := some 0, bridgeTries := 0 } := by
  have := stitch_end_to_end_force_split cfgA geoA brNone
    { chunks := [], merged_coords := [((0:ℚ),(0:ℚ)),(1,0)], prev_end := some (1,0),
      prev_rid := some 0, bridgeTries := 0 } [((1:ℚ),(0:ℚ)),(9,9)] 0 (1,0)
    rfl (by decide) (by decide)
  simpa using this

/-- C4: an absent (`None`) or degenerate (fewer than 2 coordinates) matched
line makes the step flush the current chunk — emitting it only when it has
at least 2 points, discarding it otherwise — and reset both the previous
endpoint and the previous region to none. -/
theorem stitch_absent_line_flush_reset (cfg : StitchConfig) (geo : Coord → Coord → ℚ)
    (bridgeRoute : Nat → List Coord → Option (List Coord)) (st : StitchState)
    (line : Option (List Coord)) (rid : Nat)
    (hline : line = none ∨ ∃ cs, line = some cs ∧ cs.length < 2) :
    stitch_step cfg geo bridgeRoute st line rid
      = { chunks := if 2 ≤ st.merged_coords.length then st.chunks ++ [st.merged_coords]
                    else st.chunks,
          merged_coords := [], prev_end := none, prev_rid := none,
          bridgeTries := st.bridgeTries } := by
  have hnd : isAbsentOrDegenerate line = true := by
    rcases hline with h | ⟨cs, hcs, hlt⟩
    · simp [h, isAbsentOrDegenerate]
    · simp [hcs, isAbsentOrDegenerate, hlt]
  simp only [stitch_step, hnd, if_true]
  unfold flush_chunk
  split <;> simp

/-- Witness for C4: a degenerate one-point line flushes a 2-point working
chunk and resets the state. -/
theorem stitch_absent_line_flush_reset_witness :
    stitch_step cfgA geoA brNone
        { chunks := [], merged_coords := [((0:ℚ),(0:ℚ)),(1,0)], prev_end := some (1,0),
          prev_rid := some 0, bridgeTries := 0 } (some [((5:ℚ),(5:ℚ))]) 3
      = { chunks := [[((0:ℚ),(0:ℚ)),(1,0)]], merged_coords := [], prev_end := none,
          prev_rid := none, bridgeTries := 0 } := by
  have := stitch_absent_line_flush_reset cfgA geoA brNone
    { chunks := [], merged_coords := [((0:ℚ),(0:ℚ)),(1,0)], prev_end := some (1,0),
      prev_rid := some 0, bridgeTries := 0 } (some [((5:ℚ),(5:ℚ))]) 3
    (Or.inr ⟨[((5:ℚ),(5:ℚ))], rfl, by decide⟩)
  simpa using this

/-- Counterexample to C1 as stated: with `MAX_END_TO_END_DIST_M = 50`, two
consecutive matched lines whose start gap is `0 ≤ EPS_CONNECT_M` are still
split into two chunks (the end-to-end force split fires first), so a small
gap does not guarantee an implicit connection. -/
theorem small_gap_not_always_connected_cex :
    geoA (latlon ((1:ℚ),(0:ℚ))) (latlon ((1:ℚ),(0:ℚ))) ≤ EPS_CONNECT_M ∧
    stitch_and_merge_paths cfgA geoA brNone
        [some [((0:ℚ),(0:ℚ)),(1,0)], some [((1:ℚ),(0:ℚ)),(9,9)]] [0, 0]
      = [[((0:ℚ),(0:ℚ)),(1,0)], [((1:ℚ),(0:ℚ)),(9,9)]] := by
  constructor
  · decide
  · decide

/-- C1 (amended): small-gap implicit connection — when the previous endpoint
exists, the incoming line has ≥ 2 coordinates, the end-to-end distance is
below `MAX_END_TO_END_DIST_M`, and the start gap is at most both
`GAP_BREAK_M` and `EPS_CONNECT_M` (50 m), the step appends the incoming line
to the current chunk with endpoint deduplication: no flush occurs (the chunk
list is unchanged) and no bridge is attempted (the bridge counter is
unchanged for every fallback router). -/
theorem stitch_small_gap_implicit_connect (cfg : StitchConfig) (geo : Coord → Coord → ℚ)
    (bridgeRoute : Nat → List Coord → Option (List Coord)) (st : StitchState)
    (cs : List Coord) (rid : Nat) (pe : Coord)
    (hprev : st.prev_end = some pe) (hlen : 2 ≤ cs.length)
    (he2e : geo (latlon pe) (latlon cs.getLastI) < cfg.MAX_END_TO_END_DIST_M)
    (hgb : geo (latlon pe) (latlon cs.headI) ≤ cfg.GAP_BREAK_M)
    (heps : geo (latlon pe) (latlon cs.headI) ≤ EPS_CONNECT_M) :
    stitch_step cfg geo bridgeRoute st (some cs) rid
      = { st with merged_coords := appendDedup st.merged_coords cs,
                  prev_end := some cs.getLastI, prev_rid := some rid } := by
  have hnd : isAbsentOrDegenerate (some cs) = false := by
    simp [isAbsentOrDegenerate]; omega
  simp only [stitch_step, hnd, Bool.false_eq_true, if_false, Option.getD_some,
    stitch_step_line, hprev]
  rw [if_neg (not_le.mpr he2e), if_neg (not_lt.mpr hgb), if_neg (not_lt.mpr heps)]
  rfl

/-- Witness for C1 (amended): a zero start gap with end-to-end distance 100
below `MAX_END_TO_END_DIST_M = 100000` appends the line in place. -/
theorem stitch_small_gap_implicit_connect_witness :
    stitch_step cfgB geoA brNone
        { chunks := [], merged_coords := [((0:ℚ),(0:ℚ)),(1,0)], prev_end := some (1,0),
          prev_rid := some 0, bridgeTries := 0 } (some [((1:ℚ),(0:ℚ)),(2,0)]) 0
      = { chunks := [], merged_coords := [((0:ℚ),(0:ℚ)),(1,0),(2,0)], prev_end := some (2,0),
          prev_rid := some 0, bridgeTries := 0 } := by
  have := stitch_small_gap_implicit_connect cfgB geoA brNone
    { chunks := [], merged_coords := [((0:ℚ),(0:ℚ)),(1,0)], prev_end := some (1,0),
      prev_rid := some 0, bridgeTries := 0 } [((1:ℚ),(0:ℚ)),(2,0)] 0 (1,0)
    rfl (by decide) (by decide) (by decide) (by decide)
  rw [this]
  decide

/-- Counterexample to C3 as stated: with `GAP_BREAK_M = 1000` above
`MAX_BRIDGE_TRY_M = 300`, a start gap of 500 exceeds the bridge cap, yet the
stitcher takes the small-gap bridging branch, invokes the fallback router
(bridge counter 1), and merges both lines into a single chunk — no split. -/
theorem bridge_cap_not_always_split_cex :
    cfgB.MAX_BRIDGE_TRY_M < geoB (latlon ((1:ℚ),(0:ℚ))) (latlon ((2:ℚ),(0:ℚ))) ∧
    stitch_and_merge_paths cfgB geoB brB
        [some [((0:ℚ),(0:ℚ)),(1,0)], some [((2:ℚ),(0:ℚ)),(3,0)]] [0, 0]
      = [[((0:ℚ),(0:ℚ)),(1,0),(2,0),(3,0)]] ∧
    (stitchRun cfgB geoB brB
        [some [((0:ℚ),(0:ℚ)),(1,0)], some [((2:ℚ),(0:ℚ)),(3,0)]] [0, 0]).bridgeTries = 1 := by
  refine ⟨by decide, by decide, by decide⟩

/-- C3 (amended): bridge-distance cap — when the previous endpoint exists,
the incoming line has ≥ 2 coordinates, and the start gap exceeds both
`GAP_BREAK_M` and `MAX_BRIDGE_TRY_M`, the step always splits: it flushes the
current chunk (emitting it only when it has ≥ 2 points) and starts a new
chunk with the incoming line, and the fallback router is never invoked (the
bridge counter is unchanged for every fallback router), whatever the
end-to-end distance. -/
theorem stitch_bridge_cap_force_split (cfg : StitchConfig) (geo : Coord → Coord → ℚ)
    (bridgeRoute : Nat → List Coord → Option (List Coord)) (st : StitchState)
    (cs : List Coord) (rid : Nat) (pe : Coord)
    (hprev : st.prev_end = some pe) (hlen : 2 ≤ cs.length)
    (hgb : cfg.GAP_BREAK_M < geo (latlon pe) (latlon cs.headI))
    (hcap : cfg.MAX_BRIDGE_TRY_M < geo (latlon pe) (latlon cs.headI)) :
    stitch_step cfg geo bridgeRoute st (some cs) rid
      = { chunks := if 2 ≤ st.merged_coords.length then st.chunks ++ [st.merged_coords]
                    else st.chunks,
          merged_coords := cs, prev_end := some cs.getLastI, prev_rid := some rid,
          bridgeTries := st.bridgeTries } := by
  have hnd : isAbsentOrDegenerate (some cs) = false := by
    simp [isAbsentOrDegenerate]; omega
  simp only [stitch_step, hnd, Bool.false_eq_true, if_false, Option.getD_some,
    stitch_step_line, hprev]
  by_cases he2e : cfg.MAX_END_TO_END_DIST_M ≤ geo (latlon pe) (latlon cs.getLastI)
  · rw [if_pos he2e]
    unfold startNewChunk flush_chunk
    split <;> simp
  · rw [if_neg he2e, if_pos hgb, if_pos hcap]
    unfold startNewChunk flush_chunk
    split <;> simp

/-- Witness for C3 (amended): a gap of 500 exceeding both `GAP_BREAK_M = 200`
and `MAX_BRIDGE_TRY_M = 300` splits without consulting the (available)
bridge router. -/
theorem stitch_bridge_cap_force_split_witness :
    stitch_step ⟨100000, 200, 300⟩ geoB brB
        { chunks := [], merged_coords := [((0:ℚ),(0:ℚ)),(1,0)], prev_end := some (1,0),
          prev_rid := some 0, bridgeTries := 0 } (some [((2:ℚ),(0:ℚ)),(3,0)]) 0
      = { chunks := [[((0:ℚ),(0:ℚ)),(1,0)]], merged_coords := [((2:ℚ),(0:ℚ)),(3,0)],
          prev_end := some (3,0), prev_rid := some 0, bridgeTries := 0 } := by
  have := stitch_bridge_cap_force_split ⟨100000, 200, 300⟩ geoB brB
    { chunks := [], merged_coords := [((0:ℚ),(0:ℚ)),(1,0)], prev_end := some (1,0),
      prev_rid := some 0, bridgeTries := 0 } [((2:ℚ),(0:ℚ)),(3,0)] 0 (1,0)
    rfl (by decide) (by decide) (by decide)
  simpa using this

theorem routePairsLoop_none_of_sp_none (G : Graph) (l : List Nat) :
    ∀ full : List Coord, (∃ p ∈ l.zip l.tail, G.sp p.1 p.2 = none) →
      routePairsLoop G full l = none := by
  induction l with
  | nil => intro full h; simp at h
  | cons u t ih =>
      cases t with
      | nil => intro full h; simp at h
      | cons v rest =>
          intro full h
          rcases h with ⟨p, hp, hnone⟩
          simp only [List.tail_cons, List.zip_cons_cons, List.mem_cons] at hp
          unfold routePairsLoop
          rcases hp with rfl | hp
          · simp [hnone]
          · cases hsp : G.sp u v with
            | none => rfl
            | some rn =>
                exact ih _ ⟨p, by simpa using hp, hnone⟩

/-- C5: RouteFinder all-or-nothing — when the snapping phase succeeds and
any shortest-path search between consecutive distinct snapped nodes fails,
`route_on_graph_with_waypoints` returns `none`; in particular it never
returns a polyline covering only the pairs before the failing one. -/
theorem route_no_partial_results (G : Graph) (waypoints : List Coord) (ns : List Nat)
    (hsnap : waypoints.mapM G.snap = some ns)
    (hfail : ∃ p ∈ (dedupConsec ns).zip (dedupConsec ns).tail, G.sp p.1 p.2 = none) :
    route_on_graph_with_waypoints G waypoints = none := by
  unfold route_on_graph_with_waypoints
  split
  · rfl
  · rw [hsnap]
    dsimp only
    rcases hfail with ⟨p, hp, hnone⟩
    have hlen : ¬ (dedupConsec ns).length < 2 := by
      intro hlt
      match hd : dedupConsec ns with
      | [] => rw [hd] at hp; simp at hp
      | [x] => rw [hd] at hp; simp at hp
      | x :: y :: t => rw [hd] at hlt; simp at hlt; omega
    rw [if_neg hlen, routePairsLoop_none_of_sp_none G _ [] ⟨p, hp, hnone⟩]

/-- Witness for C5: on a graph whose shortest-path search always fails, two
waypoints snapping to distinct nodes yield an absent route. -/
theorem route_no_partial_results_witness :
    route_on_graph_with_waypoints graphNoPath [((0:ℚ),(0:ℚ)), ((1:ℚ),(1:ℚ))] = none :=
  route_no_partial_results graphNoPath [((0:ℚ),(0:ℚ)), ((1:ℚ),(1:ℚ))] [0, 1]
    (by decide) ⟨(0, 1), by decide, rfl⟩

theorem mapM_snap_const {G : Graph} {n : Nat} :
    ∀ wps : List Coord, (∀ w ∈ wps, G.snap w = some n) →
      wps.mapM G.snap = some (wps.map (fun _ => n)) := by
  intro wps
  induction wps with
  | nil => intro _; rfl
  | cons w ws ih =>
      intro h
      rw [List.mapM_cons, h w (List.mem_cons_self _ _), ih (fun x hx => h x (List.mem_cons_of_mem _ hx))]
      rfl

theorem dedupConsecLoop_const (n : Nat) :
    ∀ l : List Coord, dedupConsecLoop n (l.map (fun _ => n)) = [] := by
  intro l
  induction l with
  | nil => rfl
  | cons x xs ih => simpa [dedupConsecLoop] using ih

/-- C9: when the primary-network cached graph is available and every
waypoint snaps to the single node `n`, `route_between_points_with_fallback`
returns the degenerate two-identical-point line produced by
`_safe_same_node_linestring` and treats it as a success (it is not `none`),
and that line passes the stitcher's absent/degenerate test, which only
rejects lines with fewer than 2 coordinates. -/
theorem route_fallback_same_node_degenerate (getGraph : Nat → Nat → Except Nat Graph)
    (bboxGraph : List Coord → Nat → Except Nat Graph) (netP netS regionId : Nat)
    (wps : List Coord) (G : Graph) (n : Nat)
    (hfetch : getGraph regionId netP = .ok G) (hlen : 2 ≤ wps.length)
    (hsnap : ∀ w ∈ wps, G.snap w = some n) :
    route_between_points_with_fallback getGraph bboxGraph netP netS regionId wps
        = some [G.nodes n, G.nodes n]
    ∧ isAbsentOrDegenerate (some [G.nodes n, G.nodes n]) = false := by
  have hroute : route_on_graph_with_waypoints G wps = some [G.nodes n, G.nodes n] := by
    unfold route_on_graph_with_waypoints
    rw [if_neg (by omega), mapM_snap_const wps hsnap]
    dsimp only
    match hw : wps with
    | [] => simp at hlen
    | w :: ws =>
        have hded : dedupConsec ((w :: ws).map (fun _ => n)) = [n] := by
          simp only [List.map_cons, dedupConsec]
          rw [dedupConsecLoop_const n ws]
        rw [hded]
        simp [safe_same_node_linestring]
  constructor
  · unfold route_between_points_with_fallback tryNets
    rw [hfetch]
    dsimp only
    rw [hroute]
    simp
  · simp [isAbsentOrDegenerate]

/-- Witness for C9: both waypoints snap to node 3 of `graphOneNode`; the
call returns the zero-length line at `(5, 7)` and the stitcher test accepts
it. -/
theorem route_fallback_same_node_degenerate_witness :
    route_between_points_with_fallback (fun _ _ => .ok graphOneNode)
        (fun _ _ => .error 0) 0 1 4 [((0:ℚ),(0:ℚ)), ((1:ℚ),(1:ℚ))]
        = some [((5:ℚ),(7:ℚ)), ((5:ℚ),(7:ℚ))]
    ∧ isAbsentOrDegenerate (some [((5:ℚ),(7:ℚ)), ((5:ℚ),(7:ℚ))]) = false :=
  route_fallback_same_node_degenerate (fun _ _ => .ok graphOneNode) (fun _ _ => .error 0)
    0 1 4 [((0:ℚ),(0:ℚ)), ((1:ℚ),(1:ℚ))] graphOneNode 3 rfl (by decide)
    (fun w _ => rfl)

theorem getWithExpandLoop_error {γ : Type} (provider : ℚ → ℚ → Nat → Nat → Except Nat γ)
    (cache : List ((Nat × Nat × Nat) × γ)) (regionId netType baseDist : Nat) (lat lon : ℚ) :
    ∀ (expands : List Nat) (lastExc : Option Nat) (e : GraphErr),
    getWithExpandLoop provider cache regionId netType baseDist lat lon expands lastExc = .error e →
    (∀ extra ∈ expands, lookupCache cache (regionId, netType, baseDist + extra) = none ∧
        ∃ ec, provider lat lon (baseDist + extra) netType = .error ec) ∧
    (match expands.getLast? with
     | none => e = (match lastExc with | some ec => .provErr ec | none => .loadFailed)
     | some lastE => ∃ ec, provider lat lon (baseDist + lastE) netType = .error ec ∧ e = .provErr ec) := by
  intro expands
  induction expands with
  | nil =>
      intro lastExc e he
      unfold getWithExpandLoop at he
      refine ⟨by simp, ?_⟩
      simpa using (Except.error.inj he).symm
  | cons extra rest ih =>
      intro lastExc e he
      unfold getWithExpandLoop at he
      dsimp only at he
      cases hlk : lookupCache cache (regionId, netType, baseDist + extra) with
      | some g => rw [hlk] at he; exact absurd he (by simp)
      | none =>
          rw [hlk] at he
          cases hpr : provider lat lon (baseDist + extra) netType with
          | ok g => rw [hpr] at he; exact absurd he (by simp)
          | error ec =>
              rw [hpr] at he
              have hrest := ih (some ec) e he
              refine ⟨?_, ?_⟩
              · intro x hx
                rcases List.mem_cons.mp hx with rfl | hx
                · exact ⟨hlk, ec, hpr⟩
                · exact hrest.1 x hx
              · cases rest with
                | nil =>
                    simp only [List.getLast?_singleton]
                    exact ⟨ec, hpr, by simpa using hrest.2⟩
                | cons r rs =>
                    rw [List.getLast?_cons_cons]
                    simpa using hrest.2

/-- Counterexample to C6 as stated: for a region id absent from the region
table, `get_with_expand` raises immediately (`ValueError`), although the
graph provider would succeed at the configured radius — so an error can be
raised without every radius expansion having been tried and having failed. -/
theorem get_with_expand_missing_region_cex :
    get_with_expand [] providerOk [0] 5000 [] 1 0 = .error .valueErr ∧
    providerOk 0 0 5000 0 = .ok 0 := ⟨rfl, rfl⟩

/-- C6 (amended): for a region id present in the region table, if
`get_with_expand` raises then every configured radius expansion was a cache
miss whose provider call failed, and the raised error is the provider error
recorded at the last expansion (or the generic `graph load failed` when the
expansion ladder is empty); contrapositively, any cache hit or provider
success along the ladder returns a graph instead of raising. -/
theorem get_with_expand_error_after_ladder {γ : Type} (regDf : List (Nat × ℚ × ℚ))
    (provider : ℚ → ℚ → Nat → Nat → Except Nat γ) (distExpands : List Nat)
    (baseDist : Nat) (cache : List ((Nat × Nat × Nat) × γ)) (regionId netType : Nat)
    (row : Nat × ℚ × ℚ) (e : GraphErr)
    (hfind : regDf.find? (fun r => r.1 = regionId) = some row)
    (herr : get_with_expand regDf provider distExpands baseDist cache regionId netType
        = .error e) :
    (∀ extra ∈ distExpands,
        lookupCache cache (regionId, netType, baseDist + extra) = none ∧
        ∃ ec, provider row.2.1 row.2.2 (baseDist + extra) netType = .error ec) ∧
    (match distExpands.getLast? with
     | none => e = .loadFailed
     | some lastE => ∃ ec, provider row.2.1 row.2.2 (baseDist + lastE) netType = .error ec
         ∧ e = .provErr ec) := by
  unfold get_with_expand at herr
  rw [hfind] at herr
  have h := getWithExpandLoop_error provider cache regionId netType baseDist row.2.1 row.2.2
    distExpands none e herr
  refine ⟨h.1, ?_⟩
  cases hl : distExpands.getLast? with
  | none => rw [hl] at h; simpa using h.2
  | some lastE => rw [hl] at h; simpa using h.2

/-- Witness for C6 (amended): with an always-failing provider and an empty
cache, the first expansion's cache lookup is a miss (extracted through the
theorem from the raised `provErr 7`). -/
theorem get_with_expand_error_after_ladder_witness :
    lookupCache ([] : List ((Nat × Nat × Nat) × Nat)) (1, 0, 5000 + 0) = none :=
  ((get_with_expand_error_after_ladder [(1, 0, 0)] providerErr7 [0, 3] 5000 [] 1 0
      (1, 0, 0) (.provErr 7) rfl rfl).1 0 (by decide)).1

theorem eqvGen_congr {α : Type} {R S : α → α → Prop} (h : ∀ x y, R x y ↔ S x y) (i j : α) :
    Relation.EqvGen R i j ↔ Relation.EqvGen S i j :=
  ⟨Relation.EqvGen.mono (fun a b hr => (h a b).mp hr),
   Relation.EqvGen.mono (fun a b hs => (h a b).mpr hs)⟩

theorem eqvGen_false_iff {α : Type} (i j : α) :
    Relation.EqvGen (fun _ _ => False) i j ↔ i = j := by
  constructor
  · intro h
    induction h with
    | rel x y h => exact absurd h not_false
    | refl x => rfl
    | symm x y _ ih => exact ih.symm
    | trans x y z _ _ ih1 ih2 => exact ih1.trans ih2
  · rintro rfl
    exact Relation.EqvGen.refl i

theorem eqvGen_add_edge {α : Type} (R : α → α → Prop) (a b i j : α) :
    Relation.EqvGen (fun x y => R x y ∨ (x = a ∧ y = b) ∨ (x = b ∧ y = a)) i j ↔
      Relation.EqvGen R i j ∨
      (Relation.EqvGen R i a ∧ Relation.EqvGen R j b) ∨
      (Relation.EqvGen R i b ∧ Relation.EqvGen R j a) := by
  constructor
  · intro h
    induction h with
    | rel x y h =>
        rcases h with h | ⟨rfl, rfl⟩ | ⟨rfl, rfl⟩
        · exact Or.inl (Relation.EqvGen.rel _ _ h)
        · exact Or.inr (Or.inl ⟨Relation.EqvGen.refl _, Relation.EqvGen.refl _⟩)
        · exact Or.inr (Or.inr ⟨Relation.EqvGen.refl _, Relation.EqvGen.refl _⟩)
    | refl x => exact Or.inl (Relation.EqvGen.refl x)
    | symm x y _ ih =>
        rcases ih with h | ⟨hxa, hyb⟩ | ⟨hxb, hya⟩
        · exact Or.inl (Relation.EqvGen.symm _ _ h)
        · exact Or.inr (Or.inr ⟨hyb, hxa⟩)
        · exact Or.inr (Or.inl ⟨hya, hxb⟩)
    | trans x y z _ _ ih1 ih2 =>
        rcases ih1 with h1 | ⟨hxa, hyb⟩ | ⟨hxb, hya⟩ <;>
          rcases ih2 with h2 | ⟨hya', hzb⟩ | ⟨hyb', hza⟩
        · exact Or.inl (Relation.EqvGen.trans _ _ _ h1 h2)
        · exact Or.inr (Or.inl ⟨Relation.EqvGen.trans _ _ _ h1 hya', hzb⟩)
        · exact Or.inr (Or.inr ⟨Relation.EqvGen.trans _ _ _ h1 hyb', hza⟩)
        · exact Or.inr (Or.inl ⟨hxa, Relation.EqvGen.trans _ _ _ (Relation.EqvGen.symm _ _ h2) hyb⟩)
        · exact Or.inl (Relation.EqvGen.trans _ _ _
            (Relation.EqvGen.trans _ _ _ hxa (Relation.EqvGen.symm _ _ hya'))
            (Relation.EqvGen.trans _ _ _ hyb (Relation.EqvGen.symm _ _ hzb)))
        · exact Or.inl (Relation.EqvGen.trans _ _ _ hxa (Relation.EqvGen.symm _ _ hza))
        · exact Or.inr (Or.inr ⟨hxb, Relation.EqvGen.trans _ _ _ (Relation.EqvGen.symm _ _ h2) hya⟩)
        · exact Or.inl (Relation.EqvGen.trans _ _ _ hxb (Relation.EqvGen.symm _ _ hzb))
        · exact Or.inl (Relation.EqvGen.trans _ _ _
            (Relation.EqvGen.trans _ _ _ hxb (Relation.EqvGen.symm _ _ hyb'))
            (Relation.EqvGen.trans _ _ _ hya (Relation.EqvGen.symm _ _ hza)))
  · intro h
    have hmono : ∀ u v : α, R u v →
        (fun x y => R x y ∨ (x = a ∧ y = b) ∨ (x = b ∧ y = a)) u v := fun u v hr => Or.inl hr
    have hedge : Relation.EqvGen
        (fun x y => R x y ∨ (x = a ∧ y = b) ∨ (x = b ∧ y = a)) a b :=
      Relation.EqvGen.rel _ _ (Or.inr (Or.inl ⟨rfl, rfl⟩))
    rcases h with h | ⟨hia, hjb⟩ | ⟨hib, hja⟩
    · exact h.mono hmono
    · exact Relation.EqvGen.trans _ _ _ (Relation.EqvGen.trans _ _ _ (hia.mono hmono) hedge)
        (Relation.EqvGen.symm _ _ (hjb.mono hmono))
    · exact Relation.EqvGen.trans _ _ _
        (Relation.EqvGen.trans _ _ _ (hib.mono hmono) (Relation.EqvGen.symm _ _ hedge))
        (Relation.EqvGen.symm _ _ (hja.mono hmono))

theorem getD_map_lt (f : Nat → Nat) (l : List Nat) (i : Nat) (h : i < l.length) :
    (l.map f).getD i 0 = f (l.getD i 0) := by
  have h' : i < (l.map f).length := by simpa using h
  rw [List.getD_eq_getElem _ _ h', List.getD_eq_getElem _ _ h]
  simp

theorem mergeEdge_getD (rep : List Nat) (a b i : Nat) (hi : i < rep.length) :
    (mergeEdge rep (a, b)).getD i 0
      = if rep.getD i 0 = rep.getD b 0 then rep.getD a 0 else rep.getD i 0 := by
  unfold mergeEdge
  exact getD_map_lt _ rep i hi

theorem mergeEdge_length (rep : List Nat) (e : Nat × Nat) :
    (mergeEdge rep e).length = rep.length := by
  simp [mergeEdge]

theorem mergeEdge_eq_iff (rep : List Nat) (a b i j : Nat)
    (hi : i < rep.length) (hj : j < rep.length) :
    ((mergeEdge rep (a, b)).getD i 0 = (mergeEdge rep (a, b)).getD j 0) ↔
      (rep.getD i 0 = rep.getD j 0 ∨
       (rep.getD i 0 = rep.getD a 0 ∧ rep.getD j 0 = rep.getD b 0) ∨
       (rep.getD i 0 = rep.getD b 0 ∧ rep.getD j 0 = rep.getD a 0)) := by
  rw [mergeEdge_getD rep a b i hi, mergeEdge_getD rep a b j hj]
  split_ifs <;> omega

theorem repInv_congr {n : Nat} {R S : Nat → Nat → Prop} {rep : List Nat}
    (h : ∀ x y, R x y ↔ S x y) (hinv : RepInv n R rep) : RepInv n S rep :=
  ⟨hinv.1, fun i j hi hj => (hinv.2 i j hi hj).trans (eqvGen_congr h i j)⟩

theorem repInv_init (n : Nat) : RepInv n (fun _ _ => False) (List.range n) := by
  refine ⟨List.length_range n, fun i j hi hj => ?_⟩
  rw [List.getD_eq_getElem _ _ (by simpa using hi), List.getD_eq_getElem _ _ (by simpa using hj)]
  simp only [List.getElem_range]
  exact (eqvGen_false_iff i j).symm

theorem repInv_merge {n : Nat} {R : Nat → Nat → Prop} {rep : List Nat} (a b : Nat)
    (ha : a < n) (hb : b < n) (hinv : RepInv n R rep) :
    RepInv n (fun x y => R x y ∨ (x = a ∧ y = b) ∨ (x = b ∧ y = a)) (mergeEdge rep (a, b)) := by
  obtain ⟨hlen, hiff⟩ := hinv
  refine ⟨(mergeEdge_length rep (a, b)).trans hlen, fun i j hi hj => ?_⟩
  rw [mergeEdge_eq_iff rep a b i j (by omega) (by omega), eqvGen_add_edge]
  rw [hiff i j hi hj, hiff i a hi ha, hiff j b hj hb, hiff i b hi hb, hiff j a hj ha]

theorem repInv_foldl (n : Nat) (edges : List (Nat × Nat)) :
    ∀ (R : Nat → Nat → Prop) (rep : List Nat), RepInv n R rep →
      (∀ e ∈ edges, e.1 < n ∧ e.2 < n) →
      RepInv n (fun x y => R x y ∨ edgesRel edges x y) (edges.foldl mergeEdge rep) := by
  induction edges with
  | nil =>
      intro R rep hinv _
      exact repInv_congr (fun x y => by simp [edgesRel]) hinv
  | cons e es ih =>
      intro R rep hinv hb
      have he : e.1 < n ∧ e.2 < n := hb e (List.mem_cons_self _ _)
      have hstep := repInv_merge e.1 e.2 he.1 he.2 hinv
      have hrec := ih _ (mergeEdge rep (e.1, e.2)) hstep
        (fun x hx => hb x (List.mem_cons_of_mem _ hx))
      rw [List.foldl_cons]
      refine repInv_congr (fun x y => ?_) hrec
      simp only [edgesRel, List.mem_cons, Prod.ext_iff]
      tauto

theorem componentRep_eq_iff (n : Nat) (edges : List (Nat × Nat))
    (hb : ∀ e ∈ edges, e.1 < n ∧ e.2 < n) (i j : Nat) (hi : i < n) (hj : j < n) :
    ((componentRep n edges).getD i 0 = (componentRep n edges).getD j 0) ↔
      Relation.EqvGen (edgesRel edges) i j := by
  have h := repInv_foldl n edges (fun _ _ => False) (List.range n) (repInv_init n) hb
  have h2 := repInv_congr (S := edgesRel edges) (fun x y => by simp) h
  exact h2.2 i j hi hj

theorem componentRep_length (n : Nat) (edges : List (Nat × Nat)) :
    (componentRep n edges).length = n := by
  have h : ∀ (l : List (Nat × Nat)) (rep : List Nat),
      (l.foldl mergeEdge rep).length = rep.length := by
    intro l
    induction l with
    | nil => intro rep; rfl
    | cons e es ih => intro rep; rw [List.foldl_cons, ih, mergeEdge_length]
  exact (h edges (List.range n)).trans (List.length_range n)

theorem sameGroup_iff_rep_eq (n : Nat) (edges : List (Nat × Nat)) (i j : Nat)
    (hi : i < n) (hj : j < n) :
    sameGroup (componentGroups n edges) i j ↔
      (componentRep n edges).getD i 0 = (componentRep n edges).getD j 0 := by
  unfold componentGroups sameGroup
  constructor
  · rintro ⟨g, hg, higr, hjgr⟩
    dsimp only at hg
    rcases List.mem_map.mp hg with ⟨r, _, rfl⟩
    have h1 := (List.mem_filter.mp higr).2
    have h2 := (List.mem_filter.mp hjgr).2
    simp only [decide_eq_true_eq] at h1 h2
    rw [h1, h2]
  · intro heq
    refine ⟨(List.range n).filter
        (fun x => (componentRep n edges).getD x 0 = (componentRep n edges).getD i 0), ?_, ?_, ?_⟩
    · dsimp only
      refine List.mem_map.mpr ⟨(componentRep n edges).getD i 0, ?_, rfl⟩
      refine List.mem_dedup.mpr ?_
      rw [List.getD_eq_getElem _ _ (by rw [componentRep_length]; exact hi)]
      exact List.getElem_mem _
    · exact List.mem_filter.mpr ⟨List.mem_range.mpr hi, by simp⟩
    · exact List.mem_filter.mpr ⟨List.mem_range.mpr hj, by simpa using heq.symm⟩

theorem mem_adjPairs_iff (distF : List Coord → List Coord → ℚ)
    (lines : List (List Coord)) (tol : ℚ) (p : Nat × Nat) :
    p ∈ adjPairs distF lines tol ↔
      p.1 < p.2 ∧ p.2 < lines.length ∧
        distF (lines.getD p.1 []) (lines.getD p.2 []) < tol := by
  unfold adjPairs
  simp only [List.mem_flatMap, List.mem_map, List.mem_filter, List.mem_range,
    Bool.and_eq_true, decide_eq_true_eq]
  constructor
  · rintro ⟨i, hi, j, ⟨hj, hij, hd⟩, rfl⟩
    exact ⟨hij, hj, hd⟩
  · rintro ⟨hij, hj, hd⟩
    exact ⟨p.1, by omega, p.2, ⟨hj, hij, hd⟩, rfl⟩

/-- C7: SpatialGrouper transitive grouping — for every chunk list and
tolerance, two chunk indices land in the same group of
`group_lines_by_connectivity` exactly when they are related by the
equivalence closure of the undirected below-tolerance adjacency relation
(connected components); in particular, for chunks A, B, C with
`distF A B < tol`, `distF B C < tol` but `tol ≤ distF A C`, all three are
placed in one and the same group. -/
theorem grouping_eq_connected_components (distF : List Coord → List Coord → ℚ)
    (tol : ℚ) :
    (∀ (lines : List (List Coord)) (i j : Nat), i < lines.length → j < lines.length →
      (sameGroup (groupLinesIdx distF lines tol) i j ↔
        Relation.EqvGen (belowTolRel distF lines tol) i j)) ∧
    (∀ A B C : List Coord, distF A B < tol → distF B C < tol → tol ≤ distF A C →
      sameGroup (groupLinesIdx distF [A, B, C] tol) 0 1 ∧
      sameGroup (groupLinesIdx distF [A, B, C] tol) 1 2 ∧
      sameGroup (groupLinesIdx distF [A, B, C] tol) 0 2) := by
  have hmain : ∀ (lines : List (List Coord)) (i j : Nat),
      i < lines.length → j < lines.length →
      (sameGroup (groupLinesIdx distF lines tol) i j ↔
        Relation.EqvGen (belowTolRel distF lines tol) i j) := by
    intro lines i j hi hj
    have hb : ∀ e ∈ adjPairs distF lines tol, e.1 < lines.length ∧ e.2 < lines.length := by
      intro e he
      have := (mem_adjPairs_iff distF lines tol e).mp he
      omega
    unfold groupLinesIdx
    rw [sameGroup_iff_rep_eq lines.length (adjPairs distF lines tol) i j hi hj]
    rw [componentRep_eq_iff lines.length (adjPairs distF lines tol) hb i j hi hj]
    exact eqvGen_congr (fun x y => by
      unfold edgesRel belowTolRel
      rw [mem_adjPairs_iff, mem_adjPairs_iff]) i j
  refine ⟨hmain, fun A B C hAB hBC _hAC => ?_⟩
  have h01 : Relation.EqvGen (belowTolRel distF [A, B, C] tol) 0 1 :=
    Relation.EqvGen.rel 0 1 (Or.inl ⟨by omega, by simp, by simpa using hAB⟩)
  have h12 : Relation.EqvGen (belowTolRel distF [A, B, C] tol) 1 2 :=
    Relation.EqvGen.rel 1 2 (Or.inl ⟨by omega, by simp, by simpa using hBC⟩)
  refine ⟨(hmain [A, B, C] 0 1 (by simp) (by simp)).mpr h01,
          (hmain [A, B, C] 1 2 (by simp) (by simp)).mpr h12,
          (hmain [A, B, C] 0 2 (by simp) (by simp)).mpr
            (Relation.EqvGen.trans _ _ _ h01 h12)⟩

/-- Witness for C7: in the concrete A-B-C scenario with touching pairs A–B
and B–C and far pair A–C, chunks 0 and 2 share a group. -/
theorem grouping_eq_connected_components_witness :
    sameGroup (groupLinesIdx distABC [lineA, lineB, lineC] 1) 0 2 :=
  ((grouping_eq_connected_components distABC 1).2 lineA lineB lineC
    (by decide) (by decide) (by decide)).2.2

theorem interpIsland_foldl_extends (geo : Coord → Coord → ℚ) (stepM : ℚ)
    (l : List (Coord × Coord)) :
    ∀ (a0 : List Coord) (d0 : ℚ),
      ∃ t, (l.foldl (fun (acc : List Coord × ℚ) pq =>
          let segDist := geo pq.1 pq.2
          let r := interpSegPair stepM pq.1 pq.2 segDist acc.2
          (acc.1 ++ r.1, r.2)) (a0, d0)).1 = a0 ++ t := by
  induction l with
  | nil => intro a0 d0; exact ⟨[], by simp⟩
  | cons pq rest ih =>
      intro a0 d0
      rw [List.foldl_cons]
      dsimp only
      obtain ⟨t, ht⟩ := ih (a0 ++ (interpSegPair stepM pq.1 pq.2 (geo pq.1 pq.2) d0).1)
        (interpSegPair stepM pq.1 pq.2 (geo pq.1 pq.2) d0).2
      exact ⟨(interpSegPair stepM pq.1 pq.2 (geo pq.1 pq.2) d0).1 ++ t, by
        rw [ht, List.append_assoc]⟩

/-- C8: Resampler island independence — `interpolate_continuous_coords_global`
processes each island separately: the points contributed by an island are a
function of that island alone (`interpIsland`, whose accumulated distance
starts at zero), islands before and after it contribute unchanged, and the
first point emitted for an island is that island's start point; hence no
accumulated distance and no interpolated point spans two islands. -/
theorem interp_island_independence (geo : Coord → Coord → ℚ) (stepM : ℚ)
    (pre : List (List Coord)) (seg : List Coord) (post : List (List Coord))
    (hlen : 2 ≤ seg.length) :
    interpolate_continuous_coords_global geo (pre ++ seg :: post) stepM
      = interpolate_continuous_coords_global geo pre stepM
        ++ interpIsland geo stepM seg
        ++ interpolate_continuous_coords_global geo post stepM
    ∧ (interpIsland geo stepM seg).head? = some seg.headI := by
  constructor
  · unfold interpolate_continuous_coords_global
    rw [List.filter_append, List.filter_cons]
    simp [hlen, List.flatMap_append, List.flatMap_cons, List.append_assoc]
  · unfold interpIsland
    obtain ⟨t, ht⟩ := interpIsland_foldl_extends geo stepM (seg.zip seg.tail) [seg.headI] 0
    rw [ht]
    simp

/-- Witness for C8: a single two-point island decomposes with empty
neighbours and starts at its own first point. -/
theorem interp_island_independence_witness :
    interpolate_continuous_coords_global geoA ([[((0:ℚ),(0:ℚ)),(1,0)]]) 7
      = interpolate_continuous_coords_global geoA [] 7
        ++ interpIsland geoA 7 [((0:ℚ),(0:ℚ)),(1,0)]
        ++ interpolate_continuous_coords_global geoA [] 7
    ∧ (interpIsland geoA 7 [((0:ℚ),(0:ℚ)),(1,0)]).head? = some ((0:ℚ),(0:ℚ)) :=
  interp_island_independence geoA 7 [] [((0:ℚ),(0:ℚ)),(1,0)] [] (by decide)

end LOF
